import Mathlib

/-!
Verification of the USDA-LLM-Model pipeline (three Python source files:
`API_Document_CommentsDownloader.py`, `LLM_Model_FINAL.py`,
`comment_clustering.py`) against its natural-language specification.

The Python code is shallowly embedded: pure string/list manipulation is
translated directly; external collaborators (the regulations.gov HTTP API,
the OCR engine, the OpenAI chat service, the filesystem) are modelled as
explicit oracle parameters, and Python exceptions are modelled with
`Except String`.  Python `str.strip`, `str.lower`, `str.endswith` and
substring containment are modelled by executable functions over `List Char`.
-/

namespace USDA

/-- Python whitespace test used by `str.strip` (the common subset). -/
def isPyWS (c : Char) : Bool := c = ' ' || c = '\t' || c = '\n' || c = '\r'

/-- `str.strip` on a character list: drop whitespace from both ends. -/
def pyStripList (l : List Char) : List Char :=
  ((l.dropWhile isPyWS).reverse.dropWhile isPyWS).reverse

/-- Python `str.strip()`. -/
def pyStrip (s : String) : String := String.mk (pyStripList s.toList)

/-- Python `str.lower()` (ASCII case fold, which is all the code relies on). -/
def pyLower (s : String) : String := String.mk (s.toList.map Char.toLower)

/-- Python `str.endswith(suffix)`. -/
def pyEndsWith (s suf : String) : Bool :=
  suf.toList.reverse.isPrefixOf s.toList.reverse

/-- Python substring containment `pat in s` over character lists. -/
def containsSub (pat : List Char) : List Char → Bool
  | [] => pat.isEmpty
  | c :: rest => pat.isPrefixOf (c :: rest) || containsSub pat rest

end USDA

namespace USDA.Downloader

/-!
Embedding of `API_Document_CommentsDownloader.py`.

`extract_docket_id_or_document_id` (lines 12–25) applies
`re.search(r'document/([A-Z0-9-]+-\d+)', link)` resp.
`re.search(r'docket/([A-Z0-9-]+)', link)`.  The regex engine is embedded
faithfully for these two concrete patterns: the search scans start
positions left to right; at a start position the literal is matched and
then the capture group is matched greedily with backtracking over the
first `+`.
-/

/-- The character class `[A-Z0-9-]` of both identifier patterns. -/
def isDocIdChar (c : Char) : Bool :=
  ('A' ≤ c && c ≤ 'Z') || ('0' ≤ c && c ≤ '9') || c = '-'

/-- Backtracking for `([A-Z0-9-]+-\d+)`: `run` is the maximal
`[A-Z0-9-]` run at the current position of `cs`; try taking `i+1`
characters for the `+`, then a literal `-`, then a nonempty greedy digit
run; on failure retry with one character fewer, as the greedy regex
engine does. -/
def docBacktrack (cs run : List Char) : Nat → Option (List Char)
  | 0 => none
  | i + 1 =>
    match cs.drop (i + 1) with
    | '-' :: rest =>
      let digits := rest.takeWhile Char.isDigit
      if digits.isEmpty then docBacktrack cs run i
      else some (run.take (i + 1) ++ '-' :: digits)
    | _ => docBacktrack cs run i

/-- Match the capture group `([A-Z0-9-]+-\d+)` at the head of `cs`. -/
def matchDocId (cs : List Char) : Option (List Char) :=
  let run := cs.takeWhile isDocIdChar
  docBacktrack cs run run.length

/-- Match the capture group `([A-Z0-9-]+)` at the head of `cs`. -/
def matchDocketId (cs : List Char) : Option (List Char) :=
  let run := cs.takeWhile isDocIdChar
  if run.isEmpty then none else some run

/-- `re.search(r'document/([A-Z0-9-]+-\d+)', ·)`: scan start positions
left to right; at each, require the literal `document/` and then the
group. -/
def searchDocumentId : List Char → Option (List Char)
  | [] => none
  | c :: rest =>
    if "document/".toList.isPrefixOf (c :: rest) then
      match matchDocId ((c :: rest).drop "document/".toList.length) with
      | some g => some g
      | none => searchDocumentId rest
    else searchDocumentId rest

/-- `re.search(r'docket/([A-Z0-9-]+)', ·)`. -/
def searchDocketId : List Char → Option (List Char)
  | [] => none
  | c :: rest =>
    if "docket/".toList.isPrefixOf (c :: rest) then
      match matchDocketId ((c :: rest).drop "docket/".toList.length) with
      | some g => some g
      | none => searchDocketId rest
    else searchDocketId rest

/-- `extract_docket_id_or_document_id` (lines 12–25).  Returns the pair
`(id, kind)`; every failure path falls through to `(None, None)`. -/
def extract_docket_id_or_document_id (link : String) :
    Option String × Option String :=
  if containsSub "document".toList link.toList then
    match searchDocumentId link.toList with
    | some g => (some (String.mk g), some "document")
    | none => (none, none)
  else if containsSub "docket".toList link.toList then
    match searchDocketId link.toList with
    | some g => (some (String.mk g), some "docket")
    | none => (none, none)
  else (none, none)

/-- Fixed page size of `fetch_all_comments` (line 71). -/
def page_size : Nat := 250

/-- The paging loop of `fetch_all_comments` (lines 74–112), with every
fetch succeeding and every summary carrying a `self` link (the claim's
hypothesis): the comments the API can serve are `remaining`; one page is
`remaining.take page_size`; the inner loop collects until
`total` is reached; after the inner loop the page's collected comments
are saved unconditionally; the loop stops when the limit is reached or a
short page is returned.  The result is the list of written page files
`(page_number, contents)`. -/
def fetch_pages {α : Type} (remaining : List α)
    (page_number downloaded total : Nat) : List (Nat × List α) :=
  if h : (remaining.take page_size).isEmpty then []
  else
    let collected := (remaining.take page_size).take (total - downloaded)
    (page_number, collected) ::
      (if total ≤ downloaded + collected.length ∨
          (remaining.take page_size).length < page_size then []
       else fetch_pages (remaining.drop page_size) (page_number + 1)
          (downloaded + collected.length) total)
termination_by remaining.length
decreasing_by
  have hr : remaining ≠ [] := by
    intro he
    subst he
    simp at h
  have hl : 0 < remaining.length := List.length_pos.mpr hr
  simp only [List.length_drop, page_size]
  omega

/-- `fetch_all_comments(object_id, filename, total_comments)`
(lines 65–114): start at page 1 with no comment downloaded. -/
def fetch_all_comments {α : Type} (available : List α) (total : Nat) :
    List (Nat × List α) :=
  fetch_pages available 1 0 total

/-- The concrete suffix of the well-formed document URL of the claim. -/
def docURLSuffix : List Char := "document/ABC-2024-0001-0005".toList

end USDA.Downloader

namespace USDA.LLMModel

/-!
Embedding of `LLM_Model_FINAL.py`.

External collaborators are oracle parameters: `loads` models
`json.loads` on the extracted block, `respond` models the chat
completion (the raw response text as a function of the combined comment
text and the attachment flag), `pathExists` models `os.path.exists`,
`extractPdf` models a recursive call's text result, and the primary
pdfplumber pass / OCR pass of `extract_text_from_pdf` are modelled by
their observable outcomes.  Python exceptions are `Except.error`.
-/

/-- A parsed JSON value (the shapes `json.loads` can produce). -/
inductive JVal where
  | s (v : String)
  | num (v : Int)
  | bool (v : Bool)
  | null
  | arr (elems : List JVal)
  | obj (fields : List (String × JVal))

/-- A parsed JSON object, as a key-value list with distinct keys. -/
abbrev JObj := List (String × JVal)

/-- Python `isinstance(v, list)`. -/
def pyIsList : JVal → Bool
  | .arr _ => true
  | _ => false

/-- Python `d[k]`: raises `KeyError` when the key is absent. -/
def dictItem (m : JObj) (k : String) : Except String JVal :=
  match m.lookup k with
  | some v => Except.ok v
  | none => Except.error ("KeyError: " ++ k)

/-- The scan of `re.search(r"\{[\s\S]*\}", text)` (line 304): the match
starts at the first `{` that has some `}` after it and, by greediness,
ends at the last `}` of the whole text. -/
def braceSearch : List Char → Option (List Char)
  | [] => none
  | c :: rest =>
    if c = '{' && rest.contains '}' then
      some (c :: (rest.reverse.dropWhile (fun d => !(d = '}'))).reverse)
    else braceSearch rest

/-- `extract_json_block` (lines 299–308): return the regex match or
raise `ValueError`. -/
def extract_json_block (text : String) : Except String String :=
  match braceSearch text.toList with
  | some m => Except.ok (String.mk m)
  | none => Except.error "No valid JSON found in response."

/-- Whether a string holds a brace-delimited block: some `{` followed
later by some `}`. -/
def bracePairList : List Char → Bool
  | [] => false
  | c :: rest => (c = '{' && rest.contains '}') || bracePairList rest

/-- `bracePairList` on a string. -/
def hasBraceBlock (s : String) : Bool := bracePairList s.toList

/-- The record shape produced by `classify_comment_by_issue`; fields may
hold arbitrary JSON values, exactly as the Python dict does. -/
structure ClassifyResult where
  who_type : JVal
  who_name : JVal
  what : JVal
  why : JVal
  issues : List JVal
  scientific_legal_support : JVal

/-- The all-"Unknown" sentinel record returned by both `except` arms
(lines 171–191). -/
def fallbackResult : ClassifyResult :=
  ⟨.s "Unknown", .s "Unknown", .s "Unknown", .s "Unknown",
   [.s "Needs manual review"], .s "No"⟩

/-- The `try:` body of `classify_comment_by_issue` (lines 141–169):
strip the response, extract the brace block (may raise `ValueError`),
parse it (`loads`, may raise `JSONDecodeError`), normalize `issues`
(note: when the `issues` key is absent, `.get("issues", [])` yields a
list, so the code takes the list arm and `response_data["issues"]`
raises `KeyError`), then build the record with per-field defaults. -/
def tryClassify (loads : String → Except String JObj) (response : String) :
    Except String ClassifyResult := do
  let content := pyStrip response
  let clean_json ← extract_json_block content
  let response_data ← loads clean_json
  let parsed_issues ←
    if pyIsList ((response_data.lookup "issues").getD (JVal.arr [])) then do
      let v ← dictItem response_data "issues"
      pure (match v with | JVal.arr l => l | w => [w])
    else
      pure [(response_data.lookup "issues").getD (JVal.s "Needs manual review")]
  pure ⟨(response_data.lookup "who_type").getD (JVal.s "Unknown"),
        (response_data.lookup "who_name").getD (JVal.s "Unknown"),
        (response_data.lookup "what").getD (JVal.s "Unknown"),
        (response_data.lookup "why").getD (JVal.s "Unknown"),
        parsed_issues,
        (response_data.lookup "scientific_legal_support").getD (JVal.s "No")⟩

/-- `classify_comment_by_issue` after the service responded: the two
`except` arms together catch every exception of the `try:` body and
substitute the sentinel, so the function is total — it never raises. -/
def classify_comment_by_issue (loads : String → Except String JObj)
    (response : String) : ClassifyResult :=
  match tryClassify loads response with
  | .ok r => r
  | .error _ => fallbackResult

/-- Content and loads oracle for the C9 witness: a well-formed JSON
object carrying `who_type` and `what` but no `issues` key. -/
def noIssuesContent : String := "\x7b\"who_type\": \"organization\"\x7d"

/-- The parse `json.loads` would produce for `noIssuesContent`. -/
def noIssuesObj : JObj := [("who_type", JVal.s "organization")]

/-- Observable outcome of the primary pdfplumber pass of
`extract_text_from_pdf` (lines 45–53): the per-page results of
`page.extract_text()` appended before any failure (`none` models a page
returning `None`), and whether an extraction error was then raised
(caught at line 52, which only prints). -/
structure PrimaryResult where
  pages : List (Option String)
  raised : Bool

/-- The `text` accumulated by the primary loop (lines 42–50): truthy
page texts are appended, each followed by a newline. -/
def primary_text (pr : PrimaryResult) : String :=
  pr.pages.foldl (fun text p =>
    match p with
    | some t => if t = "" then text else text ++ t ++ "\n"
    | none => text) ""

/-- The OCR accumulation and strip of lines 60–63. -/
def ocr_text_of (imgs : List String) : String :=
  pyStrip (imgs.foldl (fun a s => a ++ s ++ "\n") "")

/-- `extract_text_from_pdf` (lines 40–69).  `ocr` is the OCR pass's
observable outcome: either an exception (from `convert_from_path` or
`image_to_string`) or the per-page OCR strings.  The fallback runs only
when the primary accumulation strips to empty — note the caught primary
exception (`pr.raised`) plays no further role.  Every path returns a
string: the extractor never raises. -/
def extract_text_from_pdf (pr : PrimaryResult)
    (ocr : Except Unit (List String)) : String :=
  let text := primary_text pr
  if pyStrip text = "" then
    match ocr with
    | Except.error _ => "Unknown (OCR failed)"
    | Except.ok imgs =>
      let text := ocr_text_of imgs
      if text = "" then "Unknown (PDF unreadable)" else pyStrip text
  else pyStrip text

/-- One attachment entry of a page-file JSON record: `file_path` is
`none` when the downloader stored the JSON `null` sentinel of a failed
download (`download_file`, lines 160–162). -/
structure AttachmentRec where
  url : String
  file_path : Option String
deriving DecidableEq

/-- One comment record of a page-file JSON array. -/
structure CommentRec where
  comment_id : Option String
  text : Option String
  attachments : List AttachmentRec
deriving DecidableEq

/-- The PDF-attachment count of lines 218–221:
`att.get("file_path", "").lower().endswith(".pdf")`.  When `file_path`
was stored as JSON `null`, `.get` returns `None` and `.lower()` raises
`AttributeError`. -/
def pdf_count_step (n : Nat) (att : AttachmentRec) : Except String Nat :=
  match att.file_path with
  | none => Except.error "AttributeError: NoneType has no attribute lower"
  | some p => Except.ok (if pyEndsWith (pyLower p) ".pdf" then n + 1 else n)

/-- The full count `sum(1 for att in attachments if ...)`. -/
def pdf_count_of (atts : List AttachmentRec) : Except String Nat :=
  atts.foldlM pdf_count_step 0

/-- `os.path.basename`. -/
def basenameOf (p : String) : String := ((p.splitOn "/").getLast?).getD p

/-- The attachment-extraction loop of lines 229–239: only paths with the
lowercase suffix `.pdf` are considered; existing files are passed to the
text extractor and truthy results are appended with their label;
missing files are logged and skipped.  A `None` path would raise
`AttributeError` at `.endswith`. -/
def attachment_step (pathExists : String → Bool)
    (extractPdf : String → String) (pdf_folder : String)
    (acc : List String) (att : AttachmentRec) : Except String (List String) :=
  match att.file_path with
  | none => Except.error "AttributeError: NoneType has no attribute endswith"
  | some file_path =>
    if pyEndsWith file_path ".pdf" then
      let local_pdf_path := pdf_folder ++ "/" ++ basenameOf file_path
      if pathExists local_pdf_path then
        let pdf_text := extractPdf local_pdf_path
        Except.ok (if pdf_text = "" then acc
          else acc ++ ["Extracted PDF Text: " ++ pdf_text])
      else Except.ok acc
    else Except.ok acc

/-- The whole attachment loop, accumulating `extracted_texts`. -/
def attachment_texts (pathExists : String → Bool)
    (extractPdf : String → String) (pdf_folder : String)
    (atts : List AttachmentRec) : Except String (List String) :=
  atts.foldlM (attachment_step pathExists extractPdf pdf_folder) []

/-- One output row of the processor (the dict of lines 253–264). -/
structure DataRow where
  comment_id : String
  comment_link : String
  who_type : JVal
  who_name : JVal
  what : JVal
  why : JVal
  issues : String
  scientific_legal_support : JVal
  pdf_attachments_present : String
  pdf_attachments_count : Nat

/-- Python `", ".join(items)`: raises `TypeError` on a non-string item. -/
def pyJoin (sep : String) (items : List JVal) : Except String String := do
  let strs ← items.mapM (fun v =>
    match v with
    | JVal.s s => Except.ok s
    | _ => Except.error "TypeError: sequence item: expected str instance")
  pure (String.intercalate sep strs)

/-- The per-comment body of `process_json_comments` (lines 208–267).
`respond` is the language-model oracle (raw response for a given
combined text and attachment flag), `loads` the JSON parse oracle. -/
def process_one (pathExists : String → Bool) (extractPdf : String → String)
    (respond : String → Bool → String) (loads : String → Except String JObj)
    (pdf_folder : String) (results : List DataRow) (comment : CommentRec) :
    Except String (List DataRow) := do
  let comment_id := comment.comment_id.getD ("unknown_" ++ toString results.length)
  let comment_text := match comment.text with
    | some s => pyStrip s
    | none => ""
  let comment_link := "https://www.regulations.gov/comment/" ++ comment_id
  let pdf_count ← pdf_count_of comment.attachments
  let pdf_attached : Bool := decide (0 < pdf_count)
  let base := if comment_text ≠ ""
      ∧ pyLower comment_text ∉ ["see attached file(s)", "see attached"] then
    ["Comment Text: " ++ comment_text]
  else []
  let atexts ← attachment_texts pathExists extractPdf pdf_folder comment.attachments
  let combined_text := pyStrip (String.intercalate "\n\n" (base ++ atexts))
  if combined_text = "" then
    pure results
  else
    let summary := classify_comment_by_issue loads (respond combined_text pdf_attached)
    let issues_joined ← pyJoin ", " summary.issues
    pure (results ++ [⟨comment_id, comment_link, summary.who_type,
      summary.who_name, summary.what, summary.why, issues_joined,
      summary.scientific_legal_support,
      (if pdf_attached then "Yes" else "No"), pdf_count⟩])

/-- `process_json_comments` (lines 194–269) over an already-loaded
page-file JSON array. -/
def process_json_comments (pathExists : String → Bool)
    (extractPdf : String → String) (respond : String → Bool → String)
    (loads : String → Except String JObj) (pdf_folder : String)
    (comments : List CommentRec) : Except String (List DataRow) :=
  comments.foldlM (process_one pathExists extractPdf respond loads pdf_folder) []

end USDA.LLMModel

namespace USDA.Clustering

/-!
Embedding of `comment_clustering.py`.

The batched grouping loop (lines 81–110) is modelled from the point
where each batch's LLM response has been parsed into a list of
category/member-issues groups; `issue_to_category[issue] = category` is
Python dict assignment, embedded as an association list updated in
place (or appended) — last assignment wins on lookup, as in CPython.
-/

/-- One parsed group of a batch response:
`{"category": ..., "related_issues": [...]}`. -/
structure IssueGroup where
  category : String
  related_issues : List String
deriving DecidableEq

/-- Python dict assignment `m[k] = v`: update the existing key in place,
else append. -/
def pyDictInsert (m : List (String × String)) (k v : String) :
    List (String × String) :=
  if m.any (fun kv => kv.1 == k) then
    m.map (fun kv => if kv.1 == k then (k, v) else kv)
  else m ++ [(k, v)]

/-- The inner double loop of lines 102–107 for one parsed batch:
for each group, cap its member issues at 200 and assign each to the
group's category. -/
def mergeGroups (m : List (String × String)) (groups : List IssueGroup) :
    List (String × String) :=
  groups.foldl (fun m group =>
    (group.related_issues.take 200).foldl
      (fun m issue => pyDictInsert m issue group.category) m) m

/-- The cross-batch merge: `issue_to_category` after all parsed batch
responses have been folded in (batches whose parse failed are skipped
and simply do not appear). -/
def issue_to_category_of (batches : List (List IssueGroup)) :
    List (String × String) :=
  batches.foldl mergeGroups []

/-- All `issue_to_category[issue] = category` assignments, in execution
order. -/
def categoryWrites (batches : List (List IssueGroup)) :
    List (String × String) :=
  batches.flatMap (fun groups => groups.flatMap (fun g =>
    (g.related_issues.take 200).map (fun i => (i, g.category))))

/-- Python dict lookup `m.get(k)`. -/
def pyDictGet (m : List (String × String)) (k : String) : Option String :=
  match m with
  | [] => none
  | kv :: rest => if kv.1 = k then some kv.2 else pyDictGet rest k

/-- One categorized row: `comment_id` and the parsed `issues` column
(the other columns ride along unchanged and are irrelevant to the
claim). -/
structure CRow where
  comment_id : String
  issues : List String
deriving DecidableEq

/-- Loop body of `map_to_categories` (lines 153–156):
`category = issue_to_category.get(issue); if category:` — `None` and the
empty string are both falsy and skipped; a truthy category is added to
the set (modelled as an insertion-ordered duplicate-free list). -/
def category_add (itc : List (String × String)) (categories : List String)
    (issue : String) : List String :=
  match pyDictGet itc issue with
  | some category =>
    if category = "" then categories
    else if category ∈ categories then categories else categories ++ [category]
  | none => categories

/-- `map_to_categories` (lines 151–157): the deduplicated category set
of a record's issue list under the composed map. -/
def map_to_categories (itc : List (String × String)) (issues : List String) :
    List String :=
  issues.foldl (category_add itc) []

/-- Line 159: attach each row's category set. -/
def with_categories (itc : List (String × String)) (rows : List CRow) :
    List (CRow × List String) :=
  rows.map (fun r => (r, map_to_categories itc r.issues))

/-- `df.explode("high_level_issues")` (line 163): one row per list
element; an empty list yields a single row with a missing
(`NaN`, here `none`) category. -/
def explode_rows (rows : List (CRow × List String)) :
    List (CRow × Option String) :=
  rows.flatMap (fun rc => match rc.2 with
    | [] => [(rc.1, none)]
    | cs => cs.map (fun c => (rc.1, some c)))

/-- Lines 163–165: explode, then keep only rows whose `issue_category`
is not missing. -/
def exploded_nonnull (itc : List (String × String)) (rows : List CRow) :
    List (CRow × String) :=
  (explode_rows (with_categories itc rows)).filterMap
    (fun p => p.2.map (fun c => (p.1, c)))

/-- The sort key of line 166: by `issue_category`, then by `comment_id`. -/
def rowLE (a b : CRow × String) : Bool :=
  if a.2 = b.2 then decide (a.1.comment_id ≤ b.1.comment_id)
  else decide (a.2 < b.2)

/-- `df.sort_values(by=["issue_category", "comment_id"])` (line 166). -/
def df_sorted (itc : List (String × String)) (rows : List CRow) :
    List (CRow × String) :=
  (exploded_nonnull itc rows).mergeSort rowLE

end USDA.Clustering

namespace USDA

/-- The stripped character list is a sublist of the original. -/
theorem pyStripList_sublist (l : List Char) : (pyStripList l).Sublist l := by
  have h1 : (l.dropWhile isPyWS).Sublist l := List.dropWhile_sublist _
  have h2 : (((l.dropWhile isPyWS).reverse.dropWhile isPyWS)).Sublist
      (l.dropWhile isPyWS).reverse := List.dropWhile_sublist _
  have h3 := h2.reverse
  simpa [pyStripList] using h3.trans (by simpa using h1)

end USDA

namespace USDA.Downloader

/-- Loop invariant of the pager: the number of comment entries written
across all page files equals `min (total - downloaded) remaining.length`. -/
theorem fetch_pages_sum {α : Type} :
    ∀ (n : Nat) (remaining : List α), remaining.length ≤ n →
      ∀ p d total,
        (((fetch_pages remaining p d total).map fun pg => pg.2.length).sum)
          = min (total - d) remaining.length := by
  intro n
  induction n with
  | zero =>
    intro remaining hr p d total
    have hnil : remaining = [] := List.length_eq_zero.mp (Nat.le_zero.mp hr)
    subst hnil
    rw [fetch_pages]
    simp
  | succ n ih =>
    intro remaining hr p d total
    rw [fetch_pages]
    by_cases he : (remaining.take page_size).isEmpty
    · have hnil : remaining = [] := by
        cases remaining with
        | nil => rfl
        | cons a l => simp [page_size] at he
      subst hnil
      simp [he]
    · rw [dif_neg he]
      have hL : 0 < remaining.length := by
        cases remaining with
        | nil => simp at he
        | cons a l => simp
      simp only [List.map_cons, List.sum_cons, List.length_take]
      by_cases hstop : total ≤ d + min (total - d) (min page_size remaining.length) ∨
          (remaining.take page_size).length < page_size
      · rw [if_pos (by simpa [List.length_take] using hstop)]
        simp only [List.map_nil, List.sum_nil]
        rcases hstop with hstop | hstop
        · omega
        · simp only [List.length_take] at hstop
          omega
      · rw [if_neg (by simpa [List.length_take] using hstop)]
        push_neg at hstop
        obtain ⟨h1, h2⟩ := hstop
        simp only [List.length_take] at h2
        have hrec := ih (remaining.drop page_size)
          (by simp only [List.length_drop, page_size]; omega)
          (p + 1) (d + min (total - d) (min page_size remaining.length)) total
        simp only [List.length_take] at hrec
        rw [hrec]
        simp only [List.length_drop]
        simp only [page_size] at h1 h2 ⊢
        omega

/-- C2: with `total_comments_limit = N` and every fetch succeeding, the
total number of comment entries across all written page files equals
`min N` (number of available comments), and in particular is at most
`N`. -/
theorem fetch_all_comments_total_eq_min {α : Type} (available : List α) (N : Nat) :
    (((fetch_all_comments available N).map fun pg => pg.2.length).sum)
        = min N available.length
    ∧ (((fetch_all_comments available N).map fun pg => pg.2.length).sum) ≤ N := by
  have h := fetch_pages_sum available.length available le_rfl 1 0 N
  rw [fetch_all_comments]
  constructor
  · simpa using h
  · rw [h]
    omega

/-- C8: an ingestion run with limit 3 against a source of exactly 5
available comments writes exactly one page file, numbered 1, holding
exactly the first 3 comments. -/
theorem fetch_limit_three_of_five :
    fetch_all_comments [0, 1, 2, 3, 4] 3 = [(1, [0, 1, 2])] := by
  rw [fetch_all_comments, fetch_pages]
  have h5 : List.take page_size [0, 1, 2, 3, 4] = [0, 1, 2, 3, 4] :=
    List.take_of_length_le (by simp [page_size])
  rw [dif_neg (by rw [h5]; simp)]
  simp only [h5]
  have hc : List.take (3 - 0) [0, 1, 2, 3, 4] = [0, 1, 2] := rfl
  rw [hc]
  rw [if_pos (by simp)]

/-- If a pattern occurs as a substring of `r`, it occurs in `l ++ r`. -/
theorem containsSub_append_right (pat : List Char) (l r : List Char)
    (h : containsSub pat r = true) : containsSub pat (l ++ r) = true := by
  induction l with
  | nil => simpa using h
  | cons c l ih =>
    simp only [List.cons_append, containsSub, Bool.or_eq_true]
    exact Or.inr ih

/-- If no start position inside `p` begins a `document/` literal match in
`p ++ s`, the regex search over `p ++ s` agrees with the search over `s`. -/
theorem searchDocumentId_append (p s : List Char)
    (h : ∀ i, i < p.length →
      "document/".toList.isPrefixOf ((p ++ s).drop i) = false) :
    searchDocumentId (p ++ s) = searchDocumentId s := by
  induction p with
  | nil => simp
  | cons c p ih =>
    have h0 : "document/".toList.isPrefixOf (c :: (p ++ s)) = false := by
      simpa using h 0 (by simp)
    rw [List.cons_append, searchDocumentId]
    rw [if_neg (by simp only [h0]; simp)]
    exact ih fun i hi => by simpa using h (i + 1) (by simp; omega)

/-- C6: for any URL formed of a prefix (containing no earlier
`document/` literal occurrence) followed by
`document/ABC-2024-0001-0005`, the resolver returns exactly
`(some "ABC-2024-0001-0005", some "document")`; and for every link
whatsoever the two components of the result are both present or both
absent — never a partial tuple. -/
theorem extract_id_document_url_spec (p : List Char)
    (hp : ∀ i, i < p.length →
      "document/".toList.isPrefixOf ((p ++ docURLSuffix).drop i) = false) :
    extract_docket_id_or_document_id (String.mk (p ++ docURLSuffix))
        = (some "ABC-2024-0001-0005", some "document")
    ∧ ∀ link, ((extract_docket_id_or_document_id link).1.isSome ↔
        (extract_docket_id_or_document_id link).2.isSome) := by
  constructor
  · have hcont : containsSub "document".toList (p ++ docURLSuffix) = true :=
      containsSub_append_right _ _ _ (by decide)
    have hsearch : searchDocumentId (p ++ docURLSuffix)
        = some "ABC-2024-0001-0005".toList := by
      rw [searchDocumentId_append p docURLSuffix hp]
      decide
    rw [extract_docket_id_or_document_id]
    have htl : (String.mk (p ++ docURLSuffix)).toList = p ++ docURLSuffix := rfl
    rw [htl, if_pos hcont, hsearch]
    rfl
  · intro link
    rw [extract_docket_id_or_document_id]
    split
    · split <;> simp
    · split
      · split <;> simp
      · simp

/-- Witness for C6 at the concrete URL
`https://www.regulations.gov/document/ABC-2024-0001-0005`. -/
theorem extract_id_document_url_spec_check :
    (∀ i, i < ("https://www.regulations.gov/".toList).length →
      "document/".toList.isPrefixOf
        (("https://www.regulations.gov/".toList ++ docURLSuffix).drop i) = false)
    ∧ extract_docket_id_or_document_id
        (String.mk ("https://www.regulations.gov/".toList ++ docURLSuffix))
      = (some "ABC-2024-0001-0005", some "document") :=
  ⟨by decide,
   (extract_id_document_url_spec "https://www.regulations.gov/".toList
     (by decide)).1⟩

end USDA.Downloader

namespace USDA.LLMModel

/-- A brace pair exists in `l` exactly when `['{', '}']` is a sublist. -/
theorem bracePairList_iff_sublist (l : List Char) :
    bracePairList l = true ↔ ['{', '}'].Sublist l := by
  induction l with
  | nil => simp [bracePairList]
  | cons c rest ih =>
    rw [bracePairList]
    rw [List.sublist_cons_iff]
    simp only [Bool.or_eq_true, Bool.and_eq_true, decide_eq_true_eq, ih]
    constructor
    · rintro (⟨hc, hm⟩ | h)
      · right
        refine ⟨['}'], ?_, ?_⟩
        · rw [hc]
        · rw [List.singleton_sublist]
          exact List.elem_iff.mp hm
      · exact Or.inl h
    · rintro (h | ⟨r, hr, hsub⟩)
      · exact Or.inr h
      · left
        have : c = '{' ∧ r = ['}'] := by
          cases hr
          exact ⟨rfl, rfl⟩
        refine ⟨this.1, ?_⟩
        rw [List.elem_iff]
        rw [← List.singleton_sublist, ← this.2]
        exact hsub

/-- If no brace pair exists, the regex search fails. -/
theorem braceSearch_eq_none {l : List Char} (h : bracePairList l = false) :
    braceSearch l = none := by
  induction l with
  | nil => rfl
  | cons c rest ih =>
    rw [bracePairList, Bool.or_eq_false_iff] at h
    rw [braceSearch, if_neg (by rw [h.1]; simp), ih h.2]

/-- Brace-pair existence is monotone under sublists (hence preserved
into the original string from its stripped version). -/
theorem bracePairList_mono {l₁ l₂ : List Char} (hs : l₁.Sublist l₂)
    (h : bracePairList l₁ = true) : bracePairList l₂ = true :=
  (bracePairList_iff_sublist l₂).mpr
    (((bracePairList_iff_sublist l₁).mp h).trans hs)

/-- C3: for every language-model response string with no brace-delimited
JSON block, `classify_comment_by_issue` returns the all-"Unknown"
sentinel with `issues = ["Needs manual review"]`; moreover every
exception of the `try:` body (for any response string) is caught and
mapped to the same sentinel — the classifier never raises. -/
theorem classify_no_brace_fallback (loads : String → Except String JObj)
    (response : String) :
    (hasBraceBlock response = false →
      classify_comment_by_issue loads response = fallbackResult)
    ∧ ∀ e, tryClassify loads response = Except.error e →
        classify_comment_by_issue loads response = fallbackResult := by
  constructor
  · intro h
    have hstrip : bracePairList (pyStrip response).toList = false := by
      have hsub : (pyStrip response).toList.Sublist response.toList := by
        have := pyStripList_sublist response.toList
        simpa [pyStrip] using this
      rw [hasBraceBlock] at h
      cases hb : bracePairList (pyStrip response).toList with
      | false => rfl
      | true => rw [bracePairList_mono hsub hb] at h; cases h
    have hext : extract_json_block (pyStrip response)
        = Except.error "No valid JSON found in response." := by
      rw [extract_json_block, braceSearch_eq_none hstrip]
    rw [classify_comment_by_issue, tryClassify]
    simp only [bind, Except.bind, hext]
  · intro e he
    rw [classify_comment_by_issue, he]

/-- Witness for C3: a response of pure prose. -/
theorem classify_no_brace_fallback_check :
    hasBraceBlock "The model returned prose, no JSON at all." = false
    ∧ classify_comment_by_issue (fun _ => Except.error "unused")
        "The model returned prose, no JSON at all." = fallbackResult :=
  ⟨by decide,
   (classify_no_brace_fallback (fun _ => Except.error "unused")
     "The model returned prose, no JSON at all.").1 (by decide)⟩

/-- C9: when the extracted JSON block parses into an object with no
`"issues"` key, `classify_comment_by_issue` returns the entire
all-"Unknown" sentinel record: `.get("issues", [])` yields a list, so
the list arm runs `response_data["issues"]`, which raises `KeyError`;
the catch-all arm then discards every successfully parsed field. -/
theorem classify_missing_issues_sentinel (loads : String → Except String JObj)
    (response clean : String) (obj : JObj)
    (h1 : extract_json_block (pyStrip response) = Except.ok clean)
    (h2 : loads clean = Except.ok obj)
    (h3 : obj.lookup "issues" = none) :
    classify_comment_by_issue loads response = fallbackResult := by
  rw [classify_comment_by_issue, tryClassify]
  simp only [bind, Except.bind, h1, h2, h3, Option.getD, pyIsList, dictItem,
    if_pos]

/-- Witness for C9. -/
theorem classify_missing_issues_sentinel_check :
    extract_json_block (pyStrip noIssuesContent) = Except.ok noIssuesContent
    ∧ noIssuesObj.lookup "issues" = none
    ∧ classify_comment_by_issue (fun _ => Except.ok noIssuesObj) noIssuesContent
        = fallbackResult :=
  ⟨rfl, rfl,
   classify_missing_issues_sentinel (fun _ => Except.ok noIssuesObj)
     noIssuesContent noIssuesContent noIssuesObj rfl rfl rfl⟩

/-- Counterexample to C4 as stated: a primary pass that extracts the
text "hello" from one page and then raises an extraction error.  The
accumulated text is non-empty, so the OCR fallback is not attempted:
even with a failing OCR pass the result is "hello", not the
"Unknown (OCR failed)" sentinel the claim requires. -/
theorem extract_text_partial_skips_ocr :
    extract_text_from_pdf ⟨[some "hello"], true⟩ (Except.error ()) = "hello"
    ∧ "hello" ≠ "Unknown (OCR failed)"
    ∧ "hello" ≠ "Unknown (PDF unreadable)" :=
  ⟨rfl, by decide, by decide⟩

/-- C4 (amended): if the primary pass raises and the text accumulated
before the failure strips to empty (in particular when the failure is on
opening, before any page), the OCR fallback is attempted: a failing OCR
pass yields the sentinel "Unknown (OCR failed)", and an OCR pass whose
output strips to empty yields the distinct sentinel
"Unknown (PDF unreadable)"; the extractor is total, it never raises. -/
theorem extract_text_fallback_sentinels (pr : PrimaryResult)
    (ocr : Except Unit (List String)) :
    (pr.raised = true → pyStrip (primary_text pr) = "" →
      (∀ u, ocr = Except.error u →
        extract_text_from_pdf pr ocr = "Unknown (OCR failed)")
      ∧ (∀ imgs, ocr = Except.ok imgs → ocr_text_of imgs = "" →
          extract_text_from_pdf pr ocr = "Unknown (PDF unreadable)"))
    ∧ "Unknown (OCR failed)" ≠ "Unknown (PDF unreadable)" := by
  refine ⟨fun _ hempty => ⟨fun u hu => ?_, fun imgs hi hocr => ?_⟩, by decide⟩
  · rw [extract_text_from_pdf.eq_def]
    simp only [hempty, hu, if_pos]
  · rw [extract_text_from_pdf.eq_def]
    simp only [hempty, hi, if_pos, hocr]

/-- Witness for C4 (amended): a primary pass that raises on opening,
paired first with a failing OCR pass, then with an OCR pass returning
only whitespace. -/
theorem extract_text_fallback_sentinels_check :
    ((⟨[], true⟩ : PrimaryResult).raised = true
      ∧ pyStrip (primary_text ⟨[], true⟩) = ""
      ∧ ocr_text_of [" "] = "")
    ∧ extract_text_from_pdf ⟨[], true⟩ (Except.error ())
        = "Unknown (OCR failed)"
    ∧ extract_text_from_pdf ⟨[], true⟩ (Except.ok [" "])
        = "Unknown (PDF unreadable)" :=
  ⟨⟨rfl, rfl, rfl⟩,
   ((extract_text_fallback_sentinels ⟨[], true⟩ (Except.error ())).1
     rfl rfl).1 () rfl,
   ((extract_text_fallback_sentinels ⟨[], true⟩ (Except.ok [" "])).1
     rfl rfl).2 [" "] rfl rfl⟩

/-- C1, evaluated at the failing input: a comment whose one attachment
carries the `null` local-path sentinel of a failed download.  The count
expression `att.get("file_path", "").lower()` receives `None` and raises
`AttributeError`, aborting the whole run — contradicting the governing
rule that no single attachment's failure may abort processing. -/
theorem process_null_attachment_aborts :
    process_json_comments (fun _ => false) (fun _ => "") (fun _ _ => "")
      (fun _ => Except.error "unused") "attachments"
      [⟨some "c1", some "hello", [⟨"https://example.org/file1", none⟩]⟩]
      = Except.error "AttributeError: NoneType has no attribute lower" := rfl

/-- Counting step over attachments whose lowercased path has suffix
`.pdf`: every attachment is counted. -/
theorem pdf_count_of_all_lower (atts : List AttachmentRec)
    (h : ∀ a ∈ atts, ∃ p, a.file_path = some p ∧
      pyEndsWith (pyLower p) ".pdf" = true) :
    ∀ n, atts.foldlM pdf_count_step n = Except.ok (n + atts.length) := by
  induction atts with
  | nil => intro n; rfl
  | cons a rest ih =>
    intro n
    obtain ⟨p, hp, h1⟩ := h a (List.mem_cons_self a rest)
    rw [List.foldlM_cons, pdf_count_step, hp]
    simp only [h1, if_pos]
    have := ih (fun a ha => h a (List.mem_cons_of_mem _ ha)) (n + 1)
    simp only [bind, Except.bind]
    rw [this]
    simp only [List.length_cons]
    exact congrArg Except.ok (by omega)

/-- Extraction step over attachments whose raw path does not have the
lowercase suffix `.pdf`: every attachment is skipped, whatever the
filesystem or extractor would answer. -/
theorem attachment_texts_skip (pathExists : String → Bool)
    (extractPdf : String → String) (folder : String)
    (atts : List AttachmentRec)
    (h : ∀ a ∈ atts, ∃ p, a.file_path = some p ∧
      pyEndsWith p ".pdf" = false) :
    ∀ acc, atts.foldlM (attachment_step pathExists extractPdf folder) acc
      = Except.ok acc := by
  induction atts with
  | nil => intro acc; rfl
  | cons a rest ih =>
    intro acc
    obtain ⟨p, hp, h2⟩ := h a (List.mem_cons_self a rest)
    rw [List.foldlM_cons, attachment_step, hp]
    simp only [h2, Bool.false_eq_true, if_neg]
    simp only [bind, Except.bind]
    exact ih (fun a ha => h a (List.mem_cons_of_mem _ ha)) acc

/-- C10: attachments with an upper- or mixed-case `.PDF` extension are
all counted by the case-insensitive count (so the presence flag is set),
yet the case-sensitive extraction loop never attempts extraction on any
of them — for every filesystem and extractor oracle the extracted-text
list is empty.  Concretely, processing a comment with body "hello" and
one attachment `c1_0.PDF` yields a row reporting
`pdf_attachments_present = "Yes"` and count 1, while no attachment text
enters the combined text regardless of what extraction would return. -/
theorem mixed_case_pdf_counted_not_extracted (pathExists : String → Bool)
    (extractPdf : String → String) (folder : String)
    (atts : List AttachmentRec) (hne : atts ≠ [])
    (h : ∀ a ∈ atts, ∃ p, a.file_path = some p ∧
      pyEndsWith (pyLower p) ".pdf" = true ∧ pyEndsWith p ".pdf" = false) :
    pdf_count_of atts = Except.ok atts.length
    ∧ 0 < atts.length
    ∧ attachment_texts pathExists extractPdf folder atts = Except.ok []
    ∧ process_json_comments (fun _ => true)
        (fun _ => "SECRET ATTACHMENT TEXT") (fun _ _ => "")
        (fun _ => Except.error "malformed") "attachments"
        [⟨some "c1", some "hello", [⟨"u1", some "c1_0.PDF"⟩]⟩]
      = Except.ok [⟨"c1", "https://www.regulations.gov/comment/c1",
          JVal.s "Unknown", JVal.s "Unknown", JVal.s "Unknown",
          JVal.s "Unknown", "Needs manual review", JVal.s "No", "Yes", 1⟩] := by
  refine ⟨?_, ?_, ?_, rfl⟩
  · have := pdf_count_of_all_lower atts
      (fun a ha => (h a ha).imp fun p hp => ⟨hp.1, hp.2.1⟩) 0
    rw [pdf_count_of, this, Nat.zero_add]
  · exact List.length_pos.mpr hne
  · exact attachment_texts_skip pathExists extractPdf folder atts
      (fun a ha => (h a ha).imp fun p hp => ⟨hp.1, hp.2.2⟩) []

/-- Witness for C10 at the single attachment `c1_0.PDF`. -/
theorem mixed_case_pdf_counted_not_extracted_check :
    pdf_count_of [⟨"u1", some "c1_0.PDF"⟩] = Except.ok 1
    ∧ attachment_texts (fun _ => true) (fun _ => "SECRET ATTACHMENT TEXT")
        "attachments" [⟨"u1", some "c1_0.PDF"⟩] = Except.ok [] :=
  have h : ∀ a ∈ [(⟨"u1", some "c1_0.PDF"⟩ : AttachmentRec)], ∃ p,
      a.file_path = some p ∧ pyEndsWith (pyLower p) ".pdf" = true
      ∧ pyEndsWith p ".pdf" = false := by
    intro a ha
    rw [List.mem_singleton] at ha
    subst ha
    exact ⟨"c1_0.PDF", rfl, by decide, by decide⟩
  ⟨(mixed_case_pdf_counted_not_extracted (fun _ => true)
      (fun _ => "SECRET ATTACHMENT TEXT") "attachments" _ (by decide) h).1,
   (mixed_case_pdf_counted_not_extracted (fun _ => true)
      (fun _ => "SECRET ATTACHMENT TEXT") "attachments" _ (by decide) h).2.2.1⟩

end USDA.LLMModel

namespace USDA.Clustering

/-- Lookup after a Python dict assignment: the assigned key now maps to
the new value; other keys are untouched. -/
theorem pyDictGet_insert (k' v k : String) :
    ∀ m : List (String × String),
      pyDictGet (pyDictInsert m k' v) k
        = if k = k' then some v else pyDictGet m k := by
  have hno : ∀ m : List (String × String), k ≠ k' →
      pyDictGet (m.map (fun kv => if kv.1 == k' then (k', v) else kv)) k
        = pyDictGet m k := by
    intro m hk
    induction m with
    | nil => rfl
    | cons kv m ih =>
      simp only [List.map_cons]
      by_cases hkv : kv.1 = k'
      · rw [if_pos (beq_iff_eq.mpr hkv), pyDictGet,
          if_neg (fun hh => hk hh.symm), ih, pyDictGet,
          if_neg (fun hh => hk (by rw [← hkv, hh]))]
      · rw [if_neg (by simpa using hkv), pyDictGet, pyDictGet]
        by_cases hk2 : kv.1 = k
        · rw [if_pos hk2, if_pos hk2]
        · rw [if_neg hk2, if_neg hk2, ih]
  have hyes : ∀ m : List (String × String),
      m.any (fun kv => kv.1 == k') = true →
      pyDictGet (m.map (fun kv => if kv.1 == k' then (k', v) else kv)) k'
        = some v := by
    intro m
    induction m with
    | nil => intro hc; simp at hc
    | cons kv m ih =>
      intro hany
      simp only [List.map_cons]
      by_cases hkv : kv.1 = k'
      · rw [if_pos (beq_iff_eq.mpr hkv), pyDictGet, if_pos rfl]
      · rw [if_neg (by simpa using hkv), pyDictGet, if_neg hkv]
        apply ih
        simp only [List.any_cons, Bool.or_eq_true, beq_iff_eq] at hany
        rcases hany with h | h
        · exact absurd h hkv
        · exact h
  intro m
  rw [pyDictInsert]
  by_cases hany : m.any (fun kv => kv.1 == k') = true
  · rw [if_pos hany]
    by_cases hk : k = k'
    · subst hk
      rw [if_pos rfl, hyes m hany]
    · rw [if_neg hk, hno m hk]
  · rw [if_neg hany]
    induction m with
    | nil =>
      simp only [List.nil_append, pyDictGet]
      by_cases hk : k = k'
      · rw [if_pos hk.symm, if_pos hk]
      · rw [if_neg (fun hh => hk hh.symm), if_neg hk]
    | cons kv m ih =>
      have hkv : ¬ kv.1 = k' := by
        intro hc
        exact hany (by simp [List.any_cons, hc])
      have hany' : ¬ m.any (fun kv => kv.1 == k') = true := by
        intro hc
        exact hany (by simp [List.any_cons, hc])
      rw [List.cons_append, pyDictGet, pyDictGet]
      by_cases hk2 : kv.1 = k
      · rw [if_pos hk2, if_pos hk2,
          if_neg (fun hh => hkv (by rw [hk2, hh]))]
      · rw [if_neg hk2, if_neg hk2, ih hany']

/-- Folding a sequence of dict assignments: the final lookup of a key is
the value of its last assignment, else the prior binding. -/
theorem pyDictGet_foldl_writes (k : String) :
    ∀ (ws : List (String × String)) (m : List (String × String)),
      pyDictGet (ws.foldl (fun m w => pyDictInsert m w.1 w.2) m) k
        = match ws.reverse.find? (fun kv => kv.1 == k) with
          | some kv => some kv.2
          | none => pyDictGet m k := by
  intro ws
  induction ws with
  | nil => intro m; rfl
  | cons w ws ih =>
    intro m
    rw [List.foldl_cons, ih, List.reverse_cons, List.find?_append]
    cases hfind : ws.reverse.find? (fun kv => kv.1 == k) with
    | some kv => simp [Option.orElse]
    | none =>
      rw [pyDictGet_insert]
      by_cases hk : k = w.1
      · have hw : (w.1 == k) = true := beq_iff_eq.mpr hk.symm
        simp [List.find?, hw, hk]
      · have hw : (w.1 == k) = false :=
          beq_eq_false_iff_ne.mpr fun hh => hk hh.symm
        simp [List.find?, hw, hk]

/-- One batch's merge is the fold of its write sequence. -/
theorem mergeGroups_as_writes (groups : List IssueGroup) :
    ∀ m, mergeGroups m groups
      = (groups.flatMap (fun g => (g.related_issues.take 200).map
          (fun i => (i, g.category)))).foldl
            (fun m w => pyDictInsert m w.1 w.2) m := by
  induction groups with
  | nil => intro m; rfl
  | cons g gs ih =>
    intro m
    rw [mergeGroups, List.foldl_cons, List.flatMap_cons, List.foldl_append,
      List.foldl_map]
    rw [← mergeGroups]
    rw [ih]

/-- The whole merge is the fold of all writes in order. -/
theorem issue_to_category_as_writes :
    ∀ (batches : List (List IssueGroup)) (m : List (String × String)),
      batches.foldl mergeGroups m
        = (categoryWrites batches).foldl (fun m w => pyDictInsert m w.1 w.2) m := by
  intro batches
  induction batches with
  | nil => intro m; rfl
  | cons b bs ih =>
    intro m
    rw [List.foldl_cons, categoryWrites, List.flatMap_cons, List.foldl_append,
      ih, mergeGroups_as_writes]
    rfl

/-- Counterexample to C5 as stated: two parsed batch responses assign
the same issue string to two different categories; the final map holds
the category of the **latest** occurrence, not the earliest. -/
theorem issue_to_category_overwrite_example :
    pyDictGet (issue_to_category_of
        [[⟨"Category A", ["water quality"]⟩],
         [⟨"Category B", ["water quality"]⟩]]) "water quality"
      = some "Category B"
    ∧ "Category B" ≠ "Category A" := ⟨by decide, by decide⟩

/-- C5 (amended): merging the batch responses is plain Python dict
assignment, so a later write for the same issue string overwrites an
earlier one — for every batch sequence, an issue's final category is the
one of its **latest** occurrence among all (capped) member lists.  When
no issue string repeats (as when responses mention only their own
batch's globally deduplicated issues), first and last occurrence
coincide and the claim's reading holds. -/
theorem issue_to_category_last_write_wins
    (batches : List (List IssueGroup)) (issue : String) :
    pyDictGet (issue_to_category_of batches) issue
      = ((categoryWrites batches).reverse.find?
          (fun kv => kv.1 == issue)).map Prod.snd := by
  rw [issue_to_category_of, issue_to_category_as_writes, pyDictGet_foldl_writes]
  cases hf : (categoryWrites batches).reverse.find? (fun kv => kv.1 == issue) with
  | some kv => rfl
  | none => rfl

/-- The sort key is transitive. -/
theorem rowLE_trans (a b c : CRow × String) (hab : rowLE a b = true)
    (hbc : rowLE b c = true) : rowLE a c = true := by
  rw [rowLE] at hab hbc ⊢
  by_cases h1 : a.2 = b.2 <;> by_cases h2 : b.2 = c.2
  · rw [if_pos h1, decide_eq_true_eq] at hab
    rw [if_pos h2, decide_eq_true_eq] at hbc
    rw [if_pos (h1.trans h2), decide_eq_true_eq]
    exact le_trans hab hbc
  · rw [if_neg h2, decide_eq_true_eq] at hbc
    have hac : a.2 < c.2 := h1 ▸ hbc
    rw [if_neg (ne_of_lt hac), decide_eq_true_eq]
    exact hac
  · rw [if_neg h1, decide_eq_true_eq] at hab
    have hac : a.2 < c.2 := h2 ▸ hab
    rw [if_neg (ne_of_lt hac), decide_eq_true_eq]
    exact hac
  · rw [if_neg h1, decide_eq_true_eq] at hab
    rw [if_neg h2, decide_eq_true_eq] at hbc
    have hac : a.2 < c.2 := lt_trans hab hbc
    rw [if_neg (ne_of_lt hac), decide_eq_true_eq]
    exact hac

/-- The sort key is total. -/
theorem rowLE_total (a b : CRow × String) :
    (rowLE a b || rowLE b a) = true := by
  rw [rowLE, rowLE]
  by_cases h : a.2 = b.2
  · rw [if_pos h, if_pos h.symm]
    rcases le_total a.1.comment_id b.1.comment_id with hle | hle
    · rw [decide_eq_true hle, Bool.true_or]
    · rw [decide_eq_true hle, Bool.or_true]
  · rw [if_neg h, if_neg (fun hh => h hh.symm)]
    rcases lt_or_gt_of_ne h with hlt | hlt
    · rw [decide_eq_true hlt, Bool.true_or]
    · rw [decide_eq_true hlt, Bool.or_true]

/-- Dropping-missing applied to the exploded rows of one record with a
non-empty category list keeps every pair. -/
theorem filterMap_some_pairs (r : CRow) (cs : List String) :
    (cs.map (fun c => (r, some c))).filterMap
      (fun p : CRow × Option String => p.2.map (fun c => (p.1, c)))
    = cs.map (fun c => (r, c)) := by
  induction cs with
  | nil => rfl
  | cons c cs ih =>
    rw [List.map_cons, List.map_cons, List.filterMap_cons]
    simp [ih]

/-- Exploding then dropping the missing-category rows yields exactly one
row per (record, category) pair. -/
theorem filterMap_explode (l : List (CRow × List String)) :
    (explode_rows l).filterMap (fun p => p.2.map (fun c => (p.1, c)))
      = l.flatMap (fun rc => rc.2.map (fun c => (rc.1, c))) := by
  rw [explode_rows]
  induction l with
  | nil => rfl
  | cons rc l ih =>
    rw [List.flatMap_cons, List.filterMap_append, ih, List.flatMap_cons]
    congr 1
    cases h2 : rc.2 with
    | nil => rfl
    | cons c cs => exact filterMap_some_pairs rc.1 (c :: cs)

/-- The kept exploded rows, characterised per input record. -/
theorem exploded_nonnull_eq (itc : List (String × String)) (rows : List CRow) :
    exploded_nonnull itc rows
      = rows.flatMap (fun r =>
          (map_to_categories itc r.issues).map (fun c => (r, c))) := by
  rw [exploded_nonnull, filterMap_explode, with_categories]
  rw [List.flatMap_map]

/-- The category set of a record has no duplicates. -/
theorem map_to_categories_nodup (itc : List (String × String))
    (issues : List String) : (map_to_categories itc issues).Nodup := by
  rw [map_to_categories]
  have aux : ∀ (is' : List String) (acc : List String), acc.Nodup →
      (is'.foldl (category_add itc) acc).Nodup := by
    intro is'
    induction is' with
    | nil => intro acc h; exact h
    | cons i is' ih =>
      intro acc hacc
      rw [List.foldl_cons]
      apply ih
      rw [category_add]
      cases pyDictGet itc i with
      | none => exact hacc
      | some category =>
        dsimp only
        by_cases hc0 : category = ""
        · rw [if_pos hc0]; exact hacc
        · rw [if_neg hc0]
          by_cases hmem : category ∈ acc
          · rw [if_pos hmem]; exact hacc
          · rw [if_neg hmem]
            simp [List.nodup_append, hacc, hmem]
  exact aux issues [] List.nodup_nil

/-- C7: the sorted exploded output is a permutation of the pairs
`(record, category)` with `category` ranging over the record's
deduplicated category set — exactly one row per pair; it is sorted by
category then comment id; each record's category set is duplicate-free;
and a record whose category set is empty contributes no row. -/
theorem exploded_output_spec (itc : List (String × String)) (rows : List CRow) :
    (df_sorted itc rows).Perm (rows.flatMap (fun r =>
        (map_to_categories itc r.issues).map (fun c => (r, c))))
    ∧ List.Pairwise (fun a b => rowLE a b = true) (df_sorted itc rows)
    ∧ (∀ r : CRow, (map_to_categories itc r.issues).Nodup)
    ∧ (∀ r ∈ rows, map_to_categories itc r.issues = [] →
        ∀ x ∈ df_sorted itc rows, x.1 ≠ r) := by
  have hperm : (df_sorted itc rows).Perm (exploded_nonnull itc rows) :=
    List.mergeSort_perm _ _
  have heq := exploded_nonnull_eq itc rows
  refine ⟨heq ▸ hperm, ?_,
    fun r : CRow => map_to_categories_nodup itc r.issues, ?_⟩
  · rw [df_sorted]
    exact List.sorted_mergeSort rowLE_trans rowLE_total _
  · intro r _hr hempty x hx hx1
    have hxmem := (heq ▸ hperm).mem_iff.mp hx
    rw [List.mem_flatMap] at hxmem
    obtain ⟨r', _hr', hx'⟩ := hxmem
    rw [List.mem_map] at hx'
    obtain ⟨c, hc, hcx⟩ := hx'
    have hr'r : r' = r := by rw [← hx1, ← hcx]
    rw [hr'r, hempty] at hc
    exact absurd hc (List.not_mem_nil c)

/-- Witness for C7: one mapped issue and one unmapped issue; the record
whose only issue is unmapped has an empty category set and is absent
from the exploded output. -/
theorem exploded_output_spec_check :
    map_to_categories [("tap water contamination", "Water Quality")]
        ["unrelated"] = []
    ∧ ∀ x ∈ df_sorted [("tap water contamination", "Water Quality")]
        [⟨"c2", ["unrelated"]⟩, ⟨"c1", ["tap water contamination"]⟩],
        x.1 ≠ (⟨"c2", ["unrelated"]⟩ : CRow) :=
  ⟨by decide,
   (exploded_output_spec [("tap water contamination", "Water Quality")]
      [⟨"c2", ["unrelated"]⟩, ⟨"c1", ["tap water contamination"]⟩]).2.2.2
     ⟨"c2", ["unrelated"]⟩ (by decide) (by decide)⟩

end USDA.Clustering
